import Mathlib

/-!
Shallow embedding of the spike-sorting pipeline coordinator
(`common_spikesorting.py`, `spikesorting_curation.py`) and proofs about its
grouping, interval-resolution, curation, artifact-masking, cleanup and
access-control logic.
-/

namespace NwbDatajoint

/-! ### Access-control gate (SpikeSorting.delete / CuratedSpikeSorting.delete) -/

/-- Database context consulted by the permission-gated delete:
`paramTeam` models the `team_name` looked up through `SpikeSortingParameters`
for an entry, `teamMembers` models `LabTeam.LabTeamMember` rows for a team,
and `datajointUserName` models `LabMember.LabMemberInfo` for a member. -/
structure LabDB where
  paramTeam : Nat → String
  teamMembers : String → List String
  datajointUserName : String → String

/-- Permission bit computed for one fetched entry (loop body of
`SpikeSorting.delete`, lines 730-737): resolve the entry's team, collect the
datajoint user names of its members, and test membership of the requester. -/
def entryPermission (db : LabDB) (currentUserName : String) (entry : Nat) : Bool :=
  let teamName := db.paramTeam entry
  let labMemberNameList := db.teamMembers teamName
  let datajointUserNames := labMemberNameList.map db.datajointUserName
  datajointUserNames.contains currentUserName

/-- Outcome of the overridden `delete`: either the superclass delete runs on
the whole fetched batch, or an exception is raised and nothing is deleted. -/
inductive DeleteOutcome where
  | deleted
  | denied
deriving DecidableEq, Repr

/-- Permission-gated delete of `SpikeSorting` / `CuratedSpikeSorting`
(lines 721-742 and 1185-1206): build the per-entry permission vector and run
the underlying delete only when its sum equals the number of entries. -/
def permissionGatedDelete (db : LabDB) (currentUserName : String)
    (entries : List Nat) : DeleteOutcome :=
  let permissionBool := entries.map (entryPermission db currentUserName)
  if permissionBool.countP (fun b => b) = entries.length then
    DeleteOutcome.deleted
  else
    DeleteOutcome.denied

/-! ### Identity and grouping service (SortGroup.set_group_by_shank) -/

/-- One row fetched from the `Electrode` table, with the fields that
`set_group_by_shank` reads.  Electrode group names are numeric in this
pipeline (the code itself converts them with `np.int`), so they are modelled
as integers. -/
structure ElectrodeRec where
  electrodeId : Int
  electrodeGroupName : Int
  probeShank : Int
  originalReferenceElectrode : Int
  badChannel : Bool
deriving DecidableEq, Repr

/-- Insert a value into a list sorted ascending. -/
def insertSorted (x : Int) : List Int → List Int
  | [] => [x]
  | y :: ys => if x ≤ y then x :: y :: ys else y :: insertSorted x ys

/-- Model of `np.unique`: the distinct values of a list, sorted ascending. -/
def npUnique (l : List Int) : List Int :=
  (l.foldr insertSorted []).dedup

/-- Rows persisted by `set_group_by_shank`: the `SortGroup` master rows
(`sort_group_id`, `sort_reference_electrode_id`) and the
`SortGroupElectrode` part rows (`sort_group_id`, `electrode_id`). -/
structure SortGroupState where
  groups : List (Nat × Int)
  groupElectrodes : List (Nat × Int)
deriving DecidableEq, Repr

/-- SortGroup.set_group_by_shank (lines 79-125).  Existing groups for the
session are deleted first, so the run starts from an empty state.  For each
(electrode group, shank) in ascending order the code compares the max and min
of the members' reference electrodes; when they agree it stores the first
reference into the shared `sg_key` dictionary, and when they disagree it
builds `ValueError(...)` without raising it, so `sg_key` keeps the value of
the previous iteration (`none` here, standing for the absent key that makes
`insert1` fall back to the column default `-1`) and the insert still runs. -/
def setGroupByShank (electrodes : List ElectrodeRec) : SortGroupState :=
  let elecs := electrodes.filter (fun e => !e.badChannel)
  let eGroups := npUnique (elecs.map (fun e => e.electrodeGroupName))
  let final := eGroups.foldl
    (fun (acc : SortGroupState × Nat × Option Int) eGroup =>
      let shankList := npUnique
        ((elecs.filter (fun e => e.electrodeGroupName = eGroup)).map
          (fun e => e.probeShank))
      shankList.foldl
        (fun (acc2 : SortGroupState × Nat × Option Int) shank =>
          let (st, sortGroup, sgKeyRef) := acc2
          let shankElect := elecs.filter
            (fun e => e.electrodeGroupName = eGroup ∧ e.probeShank = shank)
          let shankElectRef := shankElect.map
            (fun e => e.originalReferenceElectrode)
          let sgKeyRef :=
            match shankElectRef with
            | [] => sgKeyRef
            | r :: _ =>
              if shankElectRef.max? = shankElectRef.min? then some r else sgKeyRef
          let st :=
            { groups := st.groups ++ [(sortGroup, sgKeyRef.getD (-1))],
              groupElectrodes := st.groupElectrodes ++
                shankElect.map (fun e => (sortGroup, e.electrodeId)) }
          (st, sortGroup + 1, sgKeyRef))
        acc)
    (⟨[], []⟩, 0, none)
  final.1

/-! ### Interval resolution (SpikeSorting.get_filtered_recording_extractor) -/

/-- Model of `np.searchsorted(timestamps, v)` (default side `left`) on a
sorted timestamp array: the number of timestamps strictly below `v`. -/
def searchsortedLeft (timestamps : List Int) (v : Int) : Nat :=
  timestamps.countP (fun t => t < v)

/-- Failure of interval resolution (the failed `assert` at lines 810-812). -/
inductive IntervalError where
  | invalidInterval
deriving DecidableEq, Repr

/-- Resolution of a sort interval to sample index bounds (lines 809-812):
search both interval endpoints in the timestamp array and require the index
difference to be strictly greater than 1000. -/
def resolveSortIndices (timestamps : List Int) (intervalStart intervalEnd : Int) :
    Except IntervalError (Nat × Nat) :=
  let lo := searchsortedLeft timestamps intervalStart
  let hi := searchsortedLeft timestamps intervalEnd
  if (1000 : Int) < (hi : Int) - (lo : Int) then
    Except.ok (lo, hi)
  else
    Except.error IntervalError.invalidInterval

/-! ### Curation (CuratedSpikeSorting.make, insert_manual_curation) -/

/-- Per-unit quality metrics table: unit id paired with an abstract metric
value. -/
structure MetricsTable where
  entries : List (Nat × Int)
deriving DecidableEq, Repr

/-- Accepted units (common_spikesorting.py lines 1090-1094): the units whose
label list contains the literal label `accept`, in label-dictionary order. -/
def acceptedUnits (labelsByUnit : List (Nat × List String)) : List Nat :=
  (labelsByUnit.filter (fun p => p.2.contains "accept")).map Prod.fst

/-- One merge group applied to the accepted-unit list (lines 1098-1101):
when every non-primary member (`m[1:]`) is a subset of the accepted units,
each non-primary member is removed (Python `list.remove`, first occurrence);
otherwise the accepted list is untouched. -/
def applyMergeGroup (accepted : List Nat) (m : List Nat) : List Nat :=
  if (m.drop 1).all (fun cell => accepted.contains cell) then
    (m.drop 1).foldl (fun acc cell => acc.erase cell) accepted
  else
    accepted

/-- The accepted-unit list after the merge-group pass of
`CuratedSpikeSorting.make` (lines 1090-1101): accept-labelled units, with
each merge group applied in order when the merge-group list is non-empty. -/
def acceptedAfterMerge (labelsByUnit : List (Nat × List String))
    (mergeGroups : List (List Nat)) : List Nat :=
  let accepted := acceptedUnits labelsByUnit
  if mergeGroups ≠ [] then mergeGroups.foldl applyMergeGroup accepted
  else accepted

/-- Result registered by `CuratedSpikeSorting.make` when it does not exit
early: the accepted units, the metrics stored with them, and whether the
metrics engine (`SpikeSortingMetrics().compute_metrics`) was invoked. -/
structure CuratedMakeResult where
  accepted : List Nat
  metrics : MetricsTable
  engineRecomputed : Bool
deriving DecidableEq, Repr

/-- Curation core of `CuratedSpikeSorting.make` (common_spikesorting.py lines
1086-1129): compute accepted units, collapse merge groups, exit early with no
persisted artifact when there are no labels or no accepted units, and
otherwise recompute metrics through the engine (unconditionally) and restrict
them to the accepted units (`metrics.loc[accepted_units]`). -/
def curatedSpikeSortingMake (labelsByUnit : List (Nat × List String))
    (mergeGroups : List (List Nat)) (computeMetrics : Unit → MetricsTable) :
    Option CuratedMakeResult :=
  let accepted := acceptedAfterMerge labelsByUnit mergeGroups
  if labelsByUnit.length = 0 ∨ accepted.length = 0 then
    none
  else
    let metrics := computeMetrics ()
    some ⟨accepted,
      ⟨metrics.entries.filter (fun p => accepted.contains p.1)⟩,
      true⟩

/-- Unit-id and metrics handling of `insert_manual_curation`
(spikesorting_curation.py lines 293-315): the unit ids are the keys of
`labelsByUnit`; when the merge-group list is non-empty every non-primary
member of every merge group is removed from the unit ids unconditionally and
the metrics are discarded (`none`, forcing recomputation); when it is empty
the prior quality metrics are reused whole. -/
def insertManualCurationMetrics (labelsByUnit : List (Nat × List String))
    (mergeGroups : List (List Nat)) (qualityMetrics : MetricsTable) :
    List Nat × Option MetricsTable :=
  let unitIds := labelsByUnit.map Prod.fst
  if mergeGroups ≠ [] then
    (mergeGroups.foldl
      (fun acc m => (m.drop 1).foldl (fun a cell => a.erase cell) acc) unitIds,
     none)
  else
    (unitIds, some qualityMetrics)

/-! ### Artifact detection (SpikeSortingArtifactParameters.get_no_artifact_times) -/

/-- Recording state: the extractor's per-sample timestamp array
(`recording._timestamps`). -/
structure Recording where
  timestamps : List Int
deriving DecidableEq, Repr

/-- Model of `recording.get_num_frames()`: one frame per timestamp. -/
def Recording.getNumFrames (r : Recording) : Nat :=
  r.timestamps.length

/-- Skip branch of `get_no_artifact_times` (lines 463-465): with both
thresholds non-positive the code returns
`[[timestamps[0], timestamps[get_num_frames()]]]`.  The element reads are
modelled with `get?`, so an out-of-range index (Python `IndexError`) gives
`none`. -/
def skipBranchInterval (r : Recording) : Option (Int × Int) :=
  match r.timestamps.get? 0, r.timestamps.get? r.getNumFrames with
  | some first, some last => some (first, last)
  | _, _ => none

/-- Errors raised by `get_no_artifact_times`. -/
inductive ArtifactDetectError where
  | indexErrorPastEnd
  | unboundLocalData
deriving DecidableEq, Repr

/-- Whole of `get_no_artifact_times` (lines 441-493) with the recording
state passed explicitly.  With both thresholds non-positive the skip branch
returns the first/last-timestamp interval — whose second read is out of
range for every recording, see `skipBranchInterval`.  With a threshold
enabled, line 469 reads `data.shape[0]` while the local `data` is only
assigned at line 471, so the call raises `UnboundLocalError` before the
traces are read, before `valid_timestamps` is bound to
`recording._timestamps`, and before any entry is written; the recording is
returned unchanged.  (Even reordered as the spec's contract note intends,
the slice bounds `a - half_window_points` and `a + half_window_points` are
`np.float64` values from `np.round` and raise `TypeError` when used to
slice, again before any write.) -/
def getNoArtifactTimes (r : Recording) (zscoreThresh amplitudeThresh : Int) :
    Except ArtifactDetectError (Int × Int) × Recording :=
  if zscoreThresh ≤ 0 ∧ amplitudeThresh ≤ 0 then
    (match skipBranchInterval r with
     | some bounds => Except.ok bounds
     | none => Except.error ArtifactDetectError.indexErrorPastEnd,
     r)
  else
    (Except.error ArtifactDetectError.unboundLocalData, r)

/-! ### Artifact store reconciliation (SpikeSorting.nightly_cleanup) -/

/-- Directories deleted by `nightly_cleanup` (lines 982-996): subdirectories
of the storage root whose name is not among the live analysis file names. -/
def nightlyCleanupRemoved (dirNames : List String)
    (analysisFileNames : List String) : List String :=
  dirNames.filter (fun d => !analysisFileNames.contains d)

/-- Directories left on disk after `nightly_cleanup`: subdirectories whose
name is among the live analysis file names are never touched. -/
def nightlyCleanupRemaining (dirNames : List String)
    (analysisFileNames : List String) : List String :=
  dirNames.filter (fun d => analysisFileNames.contains d)

end NwbDatajoint

namespace NwbDatajoint

/-- C1: the permission-gated delete approves a batch precisely when the
requesting identity is among the resolved datajoint user names of the team of
every candidate row; one row whose resolved team does not contain the
requester makes the outcome `denied`, so no row is deleted. -/
theorem permission_gated_delete_iff_all_members (db : LabDB)
    (currentUserName : String) (entries : List Nat) :
    permissionGatedDelete db currentUserName entries = DeleteOutcome.deleted ↔
      ∀ e ∈ entries,
        currentUserName ∈
          (db.teamMembers (db.paramTeam e)).map db.datajointUserName := by
  have hchar : permissionGatedDelete db currentUserName entries = DeleteOutcome.deleted
      ↔ ∀ e ∈ entries, entryPermission db currentUserName e = true := by
    simp only [permissionGatedDelete]
    split
    case isTrue h =>
      rw [List.countP_map, List.countP_eq_length] at h
      exact iff_of_true rfl (fun e he => by simpa using h e he)
    case isFalse h =>
      rw [List.countP_map, List.countP_eq_length] at h
      exact iff_of_false (by simp) (fun hall => h (fun e he => by simpa using hall e he))
  rw [hchar]
  constructor
  · intro h e he
    simpa [entryPermission, List.contains] using h e he
  · intro h e he
    simpa [entryPermission, List.contains] using h e he

/-- C9: on an empty selection the permission check passes vacuously (the
count of per-entry permissions, zero, equals the number of entries, zero) and
the underlying delete runs, for every database context, i.e. without
consulting any team membership. -/
theorem empty_batch_delete_approved (db : LabDB) (currentUserName : String) :
    permissionGatedDelete db currentUserName [] = DeleteOutcome.deleted := by
  rfl

/-- C2 (code bug): two good electrodes share electrode group 0 and shank 0
but declare different reference electrodes (0 and 1).  The claim (and the
code's own error message) says grouping must fail and persist nothing, but
the `ValueError` is built without being raised, so `set_group_by_shank`
completes and persists the sort group (with the default reference `-1`)
together with both electrodes. -/
theorem mismatched_reference_group_still_inserted :
    setGroupByShank
      [⟨0, 0, 0, 0, false⟩, ⟨1, 0, 0, 1, false⟩]
      = ⟨[(0, -1)], [(0, 0), (0, 1)]⟩ := by
  rfl

/-- C8: nightly cleanup removes exactly the storage subdirectories whose
name is not among the live analysis file names, and leaves every
subdirectory whose name is live untouched. -/
theorem nightly_cleanup_removes_exactly_dead (dirNames : List String)
    (analysisFileNames : List String) (d : String) :
    (d ∈ nightlyCleanupRemoved dirNames analysisFileNames ↔
      d ∈ dirNames ∧ d ∉ analysisFileNames) ∧
    (d ∈ nightlyCleanupRemaining dirNames analysisFileNames ↔
      d ∈ dirNames ∧ d ∈ analysisFileNames) := by
  constructor <;>
    simp [nightlyCleanupRemoved, nightlyCleanupRemaining, List.mem_filter,
      List.contains]

/-- C5 counterexample: with integer timestamps 0..999 and sort interval
[0, 1000], exactly 1000 samples fall inside the interval
(`searchsorted` difference 1000), yet resolution fails, because the assert
requires a difference strictly greater than 1000; the claim says exactly
1000 succeeds. -/
theorem interval_exactly_1000_samples_fails :
    searchsortedLeft ((List.range 1000).map (fun n => (n : Int))) 1000
        - searchsortedLeft ((List.range 1000).map (fun n => (n : Int))) 0 = 1000 ∧
    resolveSortIndices ((List.range 1000).map (fun n => (n : Int))) 0 1000
        = Except.error IntervalError.invalidInterval := by
  set_option maxRecDepth 40000 in exact ⟨by rfl, by rfl⟩

/-- C5 amended: interval resolution succeeds precisely when strictly more
than 1000 samples fall inside the interval (searchsorted index difference
above 1000), and fails with the invalid-interval error precisely when 1000
or fewer do. -/
theorem resolve_sort_indices_boundary (timestamps : List Int) (s e : Int) :
    (resolveSortIndices timestamps s e
        = Except.ok (searchsortedLeft timestamps s, searchsortedLeft timestamps e)
      ↔ (1000 : Int) <
          (searchsortedLeft timestamps e : Int) - (searchsortedLeft timestamps s : Int)) ∧
    (resolveSortIndices timestamps s e = Except.error IntervalError.invalidInterval
      ↔ (searchsortedLeft timestamps e : Int) - (searchsortedLeft timestamps s : Int)
          ≤ 1000) := by
  simp only [resolveSortIndices]
  split
  case isTrue h =>
    exact ⟨iff_of_true rfl h, iff_of_false (fun hcon => Except.noConfusion hcon) (by omega)⟩
  case isFalse h =>
    exact ⟨iff_of_false (fun hcon => Except.noConfusion hcon) h, iff_of_true rfl (by omega)⟩

/-- C6: when the accepted-unit list left after the accept-label rule and the
merge-group collapse is empty, `CuratedSpikeSorting.make` returns without an
error and without registering any artifact (result `none`), leaving the
persisted state unchanged. -/
theorem empty_curation_soft_exit (labelsByUnit : List (Nat × List String))
    (mergeGroups : List (List Nat)) (computeMetrics : Unit → MetricsTable)
    (h : acceptedAfterMerge labelsByUnit mergeGroups = []) :
    curatedSpikeSortingMake labelsByUnit mergeGroups computeMetrics = none := by
  simp [curatedSpikeSortingMake, h]

/-- Witness for C6 at a concrete input: one unit labelled only `reject`
leaves no accepted unit, and make produces no artifact. -/
theorem empty_curation_soft_exit_witness :
    curatedSpikeSortingMake [(1, ["reject"])] [] (fun _ => ⟨[(1, 7)]⟩) = none :=
  empty_curation_soft_exit [(1, ["reject"])] [] (fun _ => ⟨[(1, 7)]⟩) (by rfl)

/-- Membership in the list obtained by erasing, in order, every element of
`ms` from a duplicate-free list `l`. -/
theorem mem_foldl_erase {l : List Nat} (hl : l.Nodup) (ms : List Nat) (c : Nat) :
    c ∈ ms.foldl (fun acc b => acc.erase b) l ↔ c ∈ l ∧ c ∉ ms := by
  induction ms generalizing l with
  | nil => simp
  | cons b ms ih =>
    simp only [List.foldl_cons]
    rw [ih (hl.erase b), hl.mem_erase_iff]
    constructor
    · rintro ⟨⟨hne, hc⟩, hnm⟩
      exact ⟨hc, by simp [List.mem_cons, hne, hnm]⟩
    · rintro ⟨hc, hnm⟩
      simp only [List.mem_cons, not_or] at hnm
      exact ⟨⟨hnm.1, hc⟩, hnm.2⟩

/-- C3: in the merge-group collapse of the manual-curation transition, the
non-primary members of a merge group are removed from the (duplicate-free)
accepted-unit list exactly when every non-primary member is currently
accepted: if they all are, the resulting list holds the accepted units minus
the non-primary members; if any is not, the accepted list is unchanged. -/
theorem merge_collapse_iff_all_nonprimary_accepted (accepted m : List Nat)
    (h : accepted.Nodup) :
    ((m.drop 1).all (fun cell => accepted.contains cell) = true →
      ∀ c : Nat, c ∈ applyMergeGroup accepted m ↔ c ∈ accepted ∧ c ∉ m.drop 1) ∧
    ((m.drop 1).all (fun cell => accepted.contains cell) = false →
      applyMergeGroup accepted m = accepted) := by
  constructor
  · intro hall c
    unfold applyMergeGroup
    rw [if_pos hall]
    exact mem_foldl_erase h _ c
  · intro hnall
    unfold applyMergeGroup
    rw [if_neg (fun hc => by rw [hnall] at hc; exact Bool.noConfusion hc)]

/-- Witness for C3 at the concrete merge group [1, 2] with both units
accepted: unit 1 stays accepted and the collapse yields exactly [1]. -/
theorem merge_collapse_iff_all_nonprimary_accepted_witness :
    (1 : Nat) ∈ applyMergeGroup [1, 2] [1, 2] ∧ applyMergeGroup [1, 2] [1, 2] = [1] :=
  ⟨((merge_collapse_iff_all_nonprimary_accepted [1, 2] [1, 2] (by decide)).1
      (by rfl) 1).mpr (by decide),
   by decide⟩

/-- Successive erasure grouped by merge group equals erasure over the
concatenation of the groups' non-primary members. -/
theorem foldl_erase_groups (l : List Nat) (gs : List (List Nat)) :
    gs.foldl (fun acc m => (m.drop 1).foldl (fun a cell => a.erase cell) acc) l
      = ((gs.map (fun m => m.drop 1)).flatten).foldl (fun a cell => a.erase cell) l := by
  induction gs generalizing l with
  | nil => rfl
  | cons g gs ih =>
    simp only [List.foldl_cons, List.map_cons, List.flatten_cons, List.foldl_append]
    exact ih _

/-- C4 counterexample: in `insert_manual_curation`, the merge-group list
[[7]] removes no unit (no merge actually occurs: the unit list stays
[7, 8]), yet the metrics are discarded for recomputation (`none`); and with
an empty merge-group list the prior metrics are reused whole — including
units 2 and 3 outside the accept-labelled set — not restricted to accepted
units. -/
theorem metrics_reuse_claim_counterexample :
    (insertManualCurationMetrics [(7, ["accept"]), (8, ["accept"])] [[7]]
        ⟨[(7, 3), (8, 4)]⟩).1 = [7, 8] ∧
    (insertManualCurationMetrics [(7, ["accept"]), (8, ["accept"])] [[7]]
        ⟨[(7, 3), (8, 4)]⟩).2 = none ∧
    (insertManualCurationMetrics [(1, ["accept"]), (2, ["reject"])] []
        ⟨[(1, 1), (2, 2), (3, 3)]⟩).2 = some ⟨[(1, 1), (2, 2), (3, 3)]⟩ := by
  exact ⟨by rfl, by rfl, by rfl⟩

/-- C4 amended: `insert_manual_curation` discards the metrics for
recomputation exactly when the merge-group list is non-empty (even when no
unit is removed), reuses the prior metrics whole (not restricted to any
accepted subset) exactly when it is empty, and unconditionally removes every
non-primary merge-group member from the (duplicate-free) unit-id list. -/
theorem manual_curation_metrics_policy (labelsByUnit : List (Nat × List String))
    (mergeGroups : List (List Nat)) (qualityMetrics : MetricsTable)
    (h : (labelsByUnit.map Prod.fst).Nodup) :
    (insertManualCurationMetrics labelsByUnit mergeGroups qualityMetrics).2
        = (if mergeGroups = [] then some qualityMetrics else none) ∧
    ∀ u : Nat,
      u ∈ (insertManualCurationMetrics labelsByUnit mergeGroups qualityMetrics).1 ↔
        u ∈ labelsByUnit.map Prod.fst ∧
          u ∉ (mergeGroups.map (fun m => m.drop 1)).flatten := by
  by_cases hmg : mergeGroups = []
  · subst hmg
    simp [insertManualCurationMetrics]
  · have h1 : insertManualCurationMetrics labelsByUnit mergeGroups qualityMetrics
        = (mergeGroups.foldl
             (fun acc m => (m.drop 1).foldl (fun a cell => a.erase cell) acc)
             (labelsByUnit.map Prod.fst), none) := by
      simp only [insertManualCurationMetrics]
      rw [if_pos hmg]
    refine ⟨?_, ?_⟩
    · rw [h1, if_neg hmg]
    · intro u
      rw [h1, foldl_erase_groups]
      exact mem_foldl_erase h _ u

/-- Witness for C4's amended theorem at a concrete input: merge-group list
[[7]] is non-empty, so the stored metrics are `none`. -/
theorem manual_curation_metrics_policy_witness :
    (insertManualCurationMetrics [(7, ["accept"])] [[7]] ⟨[(7, 3)]⟩).2
      = (if ([[7]] : List (List Nat)) = [] then some (⟨[(7, 3)]⟩ : MetricsTable)
         else none) :=
  (manual_curation_metrics_policy [(7, ["accept"])] [[7]] ⟨[(7, 3)]⟩ (by decide)).1

/-- C7 (code bug): the skip branch of `get_no_artifact_times` reads the
timestamp at index `get_num_frames()`, one past the final sample, so for
every recording it hits an out-of-range access (`none`, Python IndexError)
instead of returning the first-to-last timestamp interval. -/
theorem skip_branch_index_out_of_bounds (r : Recording) :
    skipBranchInterval r = none := by
  have h : r.timestamps.get? r.getNumFrames = none :=
    List.get?_eq_none.mpr (Nat.le_refl _)
  unfold skipBranchInterval
  rw [h]
  cases r.timestamps.get? 0 <;> rfl

/-- C10 (code bug): the in-place masking the claim describes — and that the
code's own comment announces (`set the timestamps on either side of it to
-1` over `valid_timestamps = recording._timestamps`) — never executes.  For
every recording the call leaves the recording's timestamp array unchanged,
and with a threshold enabled it always raises the unbound-local error of
line 469 before the traces are read or any entry is written. -/
theorem threshold_path_raises_before_masking (r : Recording)
    (zscoreThresh amplitudeThresh : Int) :
    (getNoArtifactTimes r zscoreThresh amplitudeThresh).2 = r ∧
    ((getNoArtifactTimes r zscoreThresh amplitudeThresh).1
        = Except.error ArtifactDetectError.unboundLocalData
      ↔ ¬(zscoreThresh ≤ 0 ∧ amplitudeThresh ≤ 0)) := by
  unfold getNoArtifactTimes
  split
  case isTrue h =>
    refine ⟨rfl, iff_of_false ?_ (fun hn => hn h)⟩
    cases hsb : skipBranchInterval r <;> simp [hsb]
  case isFalse h =>
    exact ⟨rfl, iff_of_true rfl h⟩

end NwbDatajoint
